import Mathlib

/-!
Verification development for the DS1302 real-time-clock driver
(`raspi_peri/rtc/ds1302.py`).

The driver bit-bangs a three-wire serial protocol over three GPIO pins
(clock, data, reset/chip-select).  We embed the driver shallowly:

* every pin-control call the driver makes (`gpio.setup`, `gpio.output`,
  `gpio.input`, `gpio.cleanup`) becomes an event in a trace (`Ev`);
  the fixed real-time settle delays (`time.sleep(CLK_DELAY)`) carry no
  information and are not recorded as events;
* the pure data transformations (BCD register encode and decode via
  `strftime` / `strptime` with format `'%S %M %H %d %m %u %y'`) become
  Lean functions on `Nat`, with the decode returning `Option` since
  `datetime.strptime` raises `ValueError` on malformed input.
-/

/-- The three pins used by the driver: clock (`clk_pin`), the shared
bidirectional data line (`io_pin`), and reset/chip-select (`rst_pin`). -/
inductive PinId
| clk
| dat
| rst
deriving DecidableEq, Repr

/-- Pin direction, as passed to `gpio.setup` (`GPIO.IN` / `GPIO.OUT`). -/
inductive PinDir
| dirIn
| dirOut
deriving DecidableEq, Repr

/-- One pin-control call made by the driver.  `output p l` is
`gpio.output(p, l)` with level `l` (0 = LOW, 1 = HIGH), `setup p d` is
`gpio.setup(p, d)`, `input p` is `gpio.input(p)` (the sampled value is
supplied by the environment and is not part of the call itself), and
`cleanup` is the `gpio.cleanup([...])` call from `__del__`. -/
inductive Ev
| setup (p : PinId) (d : PinDir)
| output (p : PinId) (level : Nat)
| input (p : PinId)
| cleanup
deriving DecidableEq, Repr

/-- `DS1302.REG_SIZE`: the calendar register frame is 7 bytes. -/
def REG_SIZE : Nat := 7

/-- `DS1302.RAM_SIZE`: the chip RAM is 31 bytes. -/
def RAM_SIZE : Nat := 31

/-- `DS1302.WP_REG_READ = 0x8f`. -/
def WP_REG_READ : Nat := 0x8f

/-- `DS1302.WP_REG_WRITE = 0x8e`. -/
def WP_REG_WRITE : Nat := 0x8e

/-- `DS1302.CHR_REG_READ = 0x91`. -/
def CHR_REG_READ : Nat := 0x91

/-- `DS1302.CHR_REG_WRITE = 0x90`. -/
def CHR_REG_WRITE : Nat := 0x90

/-- `DS1302.REG_BURST_READ = 0xbf`. -/
def REG_BURST_READ : Nat := 0xbf

/-- `DS1302.REG_BURST_WRITE = 0xbe`. -/
def REG_BURST_WRITE : Nat := 0xbe

/-- `DS1302.RAM_BURST_READ = 0xff`. -/
def RAM_BURST_READ : Nat := 0xff

/-- `DS1302.RAW_BURST_WRITE = 0xfe` (the source spells the RAM burst
write constant with this name). -/
def RAW_BURST_WRITE : Nat := 0xfe

/-- Pin calls of `_start_tx`: drive clock LOW, then reset HIGH. -/
def start_tx_trace : List Ev :=
  [Ev.output PinId.clk 0, Ev.output PinId.rst 1]

/-- Pin calls of `_end_tx`: switch the data pin to input, drive clock
LOW, then reset LOW. -/
def end_tx_trace : List Ev :=
  [Ev.setup PinId.dat PinDir.dirIn, Ev.output PinId.clk 0,
   Ev.output PinId.rst 0]

/-- The loop body of `_write_byte`, iterated `n` times on the running
byte `b`: each iteration drives clock LOW, drives the data pin to
`byte & 0x01`, shifts the byte right by one, and drives clock HIGH. -/
def write_bits_trace : Nat → Nat → List Ev
| 0, _ => []
| n + 1, b =>
    Ev.output PinId.clk 0 :: Ev.output PinId.dat (b % 2) ::
    Ev.output PinId.clk 1 :: write_bits_trace n (b / 2)

/-- Pin calls of `_write_byte b`: set the data pin to output, then run
the 8-iteration bit loop. -/
def write_byte_trace (b : Nat) : List Ev :=
  Ev.setup PinId.dat PinDir.dirOut :: write_bits_trace 8 b

/-- The loop body of `_read_byte`, iterated `n` times: each iteration
drives clock HIGH, drives clock LOW, then samples the data pin. -/
def read_bits_trace : Nat → List Ev
| 0 => []
| n + 1 =>
    Ev.output PinId.clk 1 :: Ev.output PinId.clk 0 ::
    Ev.input PinId.dat :: read_bits_trace n

/-- Pin calls of `_read_byte`: set the data pin to input, then run the
8-iteration bit loop. -/
def read_byte_trace : List Ev :=
  Ev.setup PinId.dat PinDir.dirIn :: read_bits_trace 8

/-- The sequence of levels driven onto the data pin in a trace, in
order.  Applied to `write_byte_trace b` this is the bit stream the chip
sees. -/
def dat_levels (tr : List Ev) : List Nat :=
  tr.filterMap fun e =>
    match e with
    | Ev.output PinId.dat l => some l
    | _ => none

/-- The accumulation loop of `_read_byte`: starting from loop index `i`
and accumulator `byte`, each sampled bit is merged with
`byte |= (2 ** i) * bit`. -/
def read_byte_assemble : List Nat → Nat → Nat → Nat
| [], _, byte => byte
| bit :: rest, i, byte => read_byte_assemble rest (i + 1) (byte ||| 2 ^ i * bit)

/-- `_read_byte` as a function of the sampled bit sequence: assemble
8 bits least-significant first, starting from `byte = 0`, `i = 0`. -/
def read_byte_from_bits (bits : List Nat) : Nat :=
  read_byte_assemble bits 0 0

/-- Interpret the (at most two) decimal digits of `n` as a hexadecimal
byte.  This is what `int("0x{}".format(tok), 16)` computes on a
zero-padded decimal `strftime` token `tok` with value `n ≤ 99`; it is
exactly the BCD encoding of `n`. -/
def hexOfDec (n : Nat) : Nat := n / 10 * 16 + n % 10

/-- Interpret a byte's two hexadecimal nibbles as decimal digits.  This
is what `strptime` reads back from `"{:x}".format(b)` when both nibbles
of `b` are decimal digits; it is exactly BCD decoding. -/
def fromBCD (b : Nat) : Nat := b / 16 * 10 + b % 16

/-- Both nibbles of the byte are decimal digits, so that
`"{:x}".format(b)` renders using only the characters 0-9.  If a nibble
is `0xA`-`0xF` the rendering contains a letter, which no field of the
`strptime` format `'%S %M %H %d %m %u %y'` (nor its literal space
separators) can consume, and `strptime` raises `ValueError`. -/
def bcdOk (b : Nat) : Prop := b / 16 ≤ 9 ∧ b % 16 ≤ 9

instance (b : Nat) : Decidable (bcdOk b) := by
  unfold bcdOk
  infer_instance

/-- Proleptic Gregorian leap-year test, as used by Python `datetime`. -/
def isLeap (y : Nat) : Bool :=
  (y % 4 == 0 && y % 100 != 0) || y % 400 == 0

/-- Month lengths of year `y`, January first. -/
def monthLengths (y : Nat) : List Nat :=
  [31, if isLeap y then 29 else 28, 31, 30, 31, 30, 31, 31, 30, 31, 30, 31]

/-- Number of days in month `m` (1-12) of year `y`, as validated by the
Python `datetime` constructor. -/
def daysInMonth (y m : Nat) : Nat := (monthLengths y).getD (m - 1) 31

/-- Days in all years before year `y` (proleptic Gregorian), as in
Python `date.toordinal`. -/
def daysBeforeYear (y : Nat) : Nat :=
  365 * (y - 1) + (y - 1) / 4 - (y - 1) / 100 + (y - 1) / 400

/-- Days in year `y` strictly before month `m`. -/
def daysBeforeMonth (y m : Nat) : Nat :=
  (List.take (m - 1) (monthLengths y)).sum

/-- Python `date(y, m, d).toordinal()`: day number with 0001-01-01 as
day 1 (a Monday). -/
def toOrdinal (y m d : Nat) : Nat :=
  daysBeforeYear y + daysBeforeMonth y m + d

/-- Python `date(y, m, d).isoweekday()` and the `strftime` directive
`%u`: Monday = 1 through Sunday = 7. -/
def isoWeekday (y m d : Nat) : Nat :=
  (toOrdinal y m d - 1) % 7 + 1

/-- The `strptime` two-digit-year pivot for `%y` (Python/POSIX rule):
values 69-99 resolve to 1969-1999 and values 0-68 to 2000-2068. -/
def pivotYear (y : Nat) : Nat :=
  if 69 ≤ y then 1900 + y else 2000 + y

/-- A Python `datetime.datetime` as the driver uses it: the stored
fields.  Python computes the weekday from the date, so no weekday field
is stored. -/
structure DateTime where
  year : Nat
  month : Nat
  day : Nat
  hour : Nat
  minute : Nat
  second : Nat
deriving DecidableEq, Repr

/-- The invariants the Python `datetime` constructor enforces on its
stored fields. -/
def ValidDT (dt : DateTime) : Prop :=
  1 ≤ dt.year ∧ dt.year ≤ 9999 ∧
  1 ≤ dt.month ∧ dt.month ≤ 12 ∧
  1 ≤ dt.day ∧ dt.day ≤ daysInMonth dt.year dt.month ∧
  dt.hour ≤ 23 ∧ dt.minute ≤ 59 ∧ dt.second ≤ 59

instance (dt : DateTime) : Decidable (ValidDT dt) := by
  unfold ValidDT
  infer_instance

/-- The chip-level calendar value of the spec: the seven fields of the
register frame, with a two-digit year. -/
structure CalendarValue where
  second : Nat
  minute : Nat
  hour : Nat
  day : Nat
  month : Nat
  weekday : Nat
  year : Nat
deriving DecidableEq, Repr

/-- The per-field validity ranges the spec states for a
`CalendarValue`. -/
def validCal (v : CalendarValue) : Prop :=
  v.second ≤ 59 ∧ v.minute ≤ 59 ∧ v.hour ≤ 23 ∧
  1 ≤ v.day ∧ v.day ≤ 31 ∧ 1 ≤ v.month ∧ v.month ≤ 12 ∧
  1 ≤ v.weekday ∧ v.weekday ≤ 7 ∧ v.year ≤ 99

instance (v : CalendarValue) : Decidable (validCal v) := by
  unfold validCal
  infer_instance

/-- The 7 register bytes `write_datetime` computes from a Python
datetime: `dt.strftime('%S %M %H %d %m %u %y')` renders the second,
minute, hour, day-of-month, month, ISO weekday and two-digit year as
decimal tokens, and each token is parsed back with
`int("0x{}".format(tok), 16)`, i.e. BCD-encoded. -/
def encodeRegs (dt : DateTime) : List Nat :=
  [hexOfDec dt.second, hexOfDec dt.minute, hexOfDec dt.hour,
   hexOfDec dt.day, hexOfDec dt.month,
   hexOfDec (isoWeekday dt.year dt.month dt.day),
   hexOfDec (dt.year % 100)]

/-- The same 7-byte BCD frame built from a chip-level `CalendarValue`,
whose weekday field plays the role of the `%u` token. -/
def encodeCal (v : CalendarValue) : List Nat :=
  [hexOfDec v.second, hexOfDec v.minute, hexOfDec v.hour,
   hexOfDec v.day, hexOfDec v.month, hexOfDec v.weekday,
   hexOfDec v.year]

/-- The decode step of `read_datetime` (its line
`datetime.datetime.strptime(" ".join(["{:x}".format(x) for x in regs]), DT_STR_FMT)`),
as a function of the 7 register bytes; `none` models a raised
`ValueError`.  The conditions collect everything `strptime` with format
`'%S %M %H %d %m %u %y'` enforces on the hex renderings of the bytes:

* both nibbles of every byte must be decimal digits (a letter matches
  no field of the format);
* `%S`/`%M` accept 0-59 (60 and 61 pass the field pattern but are then
  rejected by the `datetime` constructor), `%H` accepts 0-23, `%d`
  accepts 1-31, `%m` accepts 1-12, `%u` accepts the single digits 1-7;
* `%y` matches exactly two digits, so a year byte below 0x10 (rendered
  as one digit) never matches;
* the two-digit year is resolved through the 1969-2068 pivot and the
  `datetime` constructor then requires the day to exist in that month
  of that year.

The result is built from year, month, day, hour, minute, second; the
parsed weekday is range-checked but otherwise ignored by `strptime`
when a full date is present. -/
def decode_regs : List Nat → Option DateTime
| [s, mi, h, d, mo, w, y] =>
    if bcdOk s ∧ bcdOk mi ∧ bcdOk h ∧ bcdOk d ∧ bcdOk mo ∧ bcdOk w ∧
       bcdOk y ∧
       fromBCD s ≤ 59 ∧ fromBCD mi ≤ 59 ∧ fromBCD h ≤ 23 ∧
       1 ≤ fromBCD d ∧ fromBCD d ≤ 31 ∧
       1 ≤ fromBCD mo ∧ fromBCD mo ≤ 12 ∧
       1 ≤ fromBCD w ∧ fromBCD w ≤ 7 ∧
       10 ≤ fromBCD y ∧
       fromBCD d ≤ daysInMonth (pivotYear (fromBCD y)) (fromBCD mo) then
      some ⟨pivotYear (fromBCD y), fromBCD mo, fromBCD d,
            fromBCD h, fromBCD mi, fromBCD s⟩
    else none
| _ => none

/-- The chip-level view of a decoded Python datetime: its register
fields in frame order, with the weekday Python derives from the date
and the two-digit year. -/
def calOfDateTime (d : DateTime) : CalendarValue :=
  ⟨d.second, d.minute, d.hour, d.day, d.month,
   isoWeekday d.year d.month d.day, d.year % 100⟩

/-- The 9 data bytes `write_datetime` sends after the command byte:
the 7 encoded registers plus `[0] * 2` trailing padding. -/
def write_datetime_regs (dt : DateTime) : List Nat :=
  encodeRegs dt ++ [0, 0]

/-- The data bytes `write_ram` sends after the command byte: the loop
`for i in range(min(len(ram), RAM_SIZE)): _write_byte(ord(ram[i:i+1]))`. -/
def write_ram_data (ram : List Nat) : List Nat :=
  (List.range (min ram.length RAM_SIZE)).map fun i => ram.getD i 0

/-- Pin calls of `read_datetime`: one transaction writing the register
burst read command then reading `REG_SIZE` bytes. -/
def read_datetime_trace : List Ev :=
  start_tx_trace ++ write_byte_trace REG_BURST_READ ++
  (List.replicate REG_SIZE read_byte_trace).flatten ++ end_tx_trace

/-- Pin calls of `write_datetime dt`: one transaction writing the
register burst write command then the 9 data bytes. -/
def write_datetime_trace (dt : DateTime) : List Ev :=
  start_tx_trace ++ write_byte_trace REG_BURST_WRITE ++
  ((write_datetime_regs dt).map write_byte_trace).flatten ++ end_tx_trace

/-- Pin calls of `read_ram`: one transaction writing the RAM burst read
command then reading `RAM_SIZE` bytes. -/
def read_ram_trace : List Ev :=
  start_tx_trace ++ write_byte_trace RAM_BURST_READ ++
  (List.replicate RAM_SIZE read_byte_trace).flatten ++ end_tx_trace

/-- Pin calls of `write_ram ram`: one transaction writing the RAM burst
write command then at most `RAM_SIZE` data bytes. -/
def write_ram_trace (ram : List Nat) : List Ev :=
  start_tx_trace ++ write_byte_trace RAW_BURST_WRITE ++
  ((write_ram_data ram).map write_byte_trace).flatten ++ end_tx_trace

/-- Pin calls of `__init__` after the GPIO handle is opened: set the
clock and reset pins as outputs at LOW, then two transactions, one
clearing write protection (`WP_REG_WRITE` then `0x00`) and one
disabling charge (`CHR_REG_WRITE` then `0x00`). -/
def init_trace : List Ev :=
  [Ev.setup PinId.clk PinDir.dirOut, Ev.output PinId.clk 0,
   Ev.setup PinId.rst PinDir.dirOut, Ev.output PinId.rst 0] ++
  (start_tx_trace ++ write_byte_trace WP_REG_WRITE ++
   write_byte_trace 0x00 ++ end_tx_trace) ++
  (start_tx_trace ++ write_byte_trace CHR_REG_WRITE ++
   write_byte_trace 0x00 ++ end_tx_trace)

/-! ## Helper lemmas about the BCD codec -/

/-- Reading back the decimal digits of the BCD encoding restores the
encoded value. -/
theorem fromBCD_hexOfDec (n : Nat) : fromBCD (hexOfDec n) = n := by
  unfold fromBCD hexOfDec
  omega

/-- The BCD encoding of a value up to 99 has decimal-digit nibbles. -/
theorem bcdOk_hexOfDec {n : Nat} (h : n ≤ 99) : bcdOk (hexOfDec n) := by
  unfold bcdOk hexOfDec
  omega

/-- The pivoted year keeps the two low decimal digits. -/
theorem pivotYear_mod (y : Nat) (h : y ≤ 99) : pivotYear y % 100 = y := by
  unfold pivotYear
  split <;> omega

/-- The pivoted year always lands in 1969-2068. -/
theorem pivotYear_bounds (y : Nat) (h : y ≤ 99) :
    1969 ≤ pivotYear y ∧ pivotYear y ≤ 2068 := by
  unfold pivotYear
  split <;> omega

/-- C1 (amended): for every `CalendarValue` within the spec's per-field
ranges whose year is at least 10, whose day exists in its month of the
pivoted year, and whose weekday is the ISO weekday of that pivoted
date, encoding the value into the 7-byte BCD register frame as
`write_datetime` does and decoding it back as `read_datetime` does
returns the value unchanged. -/
theorem c1_bcd_roundtrip_amended (v : CalendarValue) (hv : validCal v)
    (hy : 10 ≤ v.year)
    (hd : v.day ≤ daysInMonth (pivotYear v.year) v.month)
    (hw : v.weekday = isoWeekday (pivotYear v.year) v.month v.day) :
    (decode_regs (encodeCal v)).map calOfDateTime = some v := by
  obtain ⟨s, mi, h, d, mo, w, y⟩ := v
  unfold validCal at hv
  dsimp only at hv hy hd hw
  obtain ⟨h1, h2, h3, h4, h5, h6, h7, h8, h9, h10⟩ := hv
  simp only [encodeCal, decode_regs, fromBCD_hexOfDec]
  rw [if_pos]
  · cases hw
    simp only [Option.map_some']
    unfold calOfDateTime
    simp only [Option.some.injEq, CalendarValue.mk.injEq, pivotYear_mod y h10,
      and_self, and_true, true_and]
  · exact ⟨bcdOk_hexOfDec (by omega), bcdOk_hexOfDec (by omega),
      bcdOk_hexOfDec (by omega), bcdOk_hexOfDec (by omega),
      bcdOk_hexOfDec (by omega), bcdOk_hexOfDec (by omega),
      bcdOk_hexOfDec (by omega), h1, h2, h3, h4, h5, h6, h7, h8, h9, hy, hd⟩

/-- C1 counterexample: three values inside every per-field range of
the claim whose round trip does not return the original value — day 31
in month 2 makes the decode raise; a weekday inconsistent with the
date comes back as the date's weekday (the decode ignores the weekday
byte beyond a range check); and a year below 10 makes the decode raise
because its hex rendering is a single digit, which the two-digit year
field never matches. -/
theorem c1_bcd_roundtrip_counterexample :
    (validCal ⟨0, 0, 0, 31, 2, 1, 24⟩ ∧
      decode_regs (encodeCal ⟨0, 0, 0, 31, 2, 1, 24⟩) = none ∧
      (decode_regs (encodeCal ⟨0, 0, 0, 31, 2, 1, 24⟩)).map calOfDateTime ≠
        some ⟨0, 0, 0, 31, 2, 1, 24⟩) ∧
    (validCal ⟨0, 0, 0, 1, 1, 2, 24⟩ ∧
      (decode_regs (encodeCal ⟨0, 0, 0, 1, 1, 2, 24⟩)).map calOfDateTime =
        some ⟨0, 0, 0, 1, 1, 1, 24⟩ ∧
      (decode_regs (encodeCal ⟨0, 0, 0, 1, 1, 2, 24⟩)).map calOfDateTime ≠
        some ⟨0, 0, 0, 1, 1, 2, 24⟩) ∧
    (validCal ⟨0, 0, 0, 1, 1, 6, 5⟩ ∧
      decode_regs (encodeCal ⟨0, 0, 0, 1, 1, 6, 5⟩) = none ∧
      (decode_regs (encodeCal ⟨0, 0, 0, 1, 1, 6, 5⟩)).map calOfDateTime ≠
        some ⟨0, 0, 0, 1, 1, 6, 5⟩) := by
  refine ⟨⟨by decide, by decide, by decide⟩, ⟨by decide, by decide, by decide⟩,
    ⟨by decide, by decide, by decide⟩⟩

/-- C1 witness: the round trip holds at the concrete value
2024-01-15 10:30:45, weekday Monday. -/
theorem c1_bcd_roundtrip_witness :
    validCal ⟨45, 30, 10, 15, 1, 1, 24⟩ ∧ 10 ≤ (24 : Nat) ∧
    (15 : Nat) ≤ daysInMonth (pivotYear 24) 1 ∧
    (1 : Nat) = isoWeekday (pivotYear 24) 1 15 ∧
    (decode_regs (encodeCal ⟨45, 30, 10, 15, 1, 1, 24⟩)).map calOfDateTime =
      some ⟨45, 30, 10, 15, 1, 1, 24⟩ :=
  ⟨by decide, by decide, by decide, by decide,
   c1_bcd_roundtrip_amended ⟨45, 30, 10, 15, 1, 1, 24⟩ (by decide) (by decide)
     (by decide) (by decide)⟩

/-- C6: for every 7-byte register frame in which some byte has a nibble
above 9 (so its hex rendering contains a letter no format field can
match), or whose digits decode to a field outside its valid range
(seconds or minutes above 59, hour above 23, day 0 or above 31, month 0
or above 12, weekday 0 or above 7 — e.g. month 13, hour 25),
`read_datetime`'s decode raises (`none`) rather than returning a
clamped or wrapped calendar value. -/
theorem c6_decode_rejection (s mi h d mo w y : Nat)
    (hbad : (¬ bcdOk s ∨ ¬ bcdOk mi ∨ ¬ bcdOk h ∨ ¬ bcdOk d ∨ ¬ bcdOk mo ∨
             ¬ bcdOk w ∨ ¬ bcdOk y) ∨
            59 < fromBCD s ∨ 59 < fromBCD mi ∨ 23 < fromBCD h ∨
            fromBCD d = 0 ∨ 31 < fromBCD d ∨
            fromBCD mo = 0 ∨ 12 < fromBCD mo ∨
            fromBCD w = 0 ∨ 7 < fromBCD w) :
    decode_regs [s, mi, h, d, mo, w, y] = none := by
  simp only [decode_regs]
  rw [if_neg]
  rintro ⟨c1, c2, c3, c4, c5, c6, c7, c8, c9, c10, c11, c12, c13, c14, c15,
    c16, c17, c18⟩
  rcases hbad with hb | hb | hb | hb | hb | hb | hb | hb | hb | hb
  · rcases hb with hb | hb | hb | hb | hb | hb | hb <;> exact hb (by assumption)
  all_goals omega

/-- C6 witness: a frame whose seconds byte has nibble 0xA and a frame
with month byte 0x13 (month 13) both decode to an error. -/
theorem c6_decode_rejection_witness :
    (¬ bcdOk 0x0a ∨ ¬ bcdOk 0 ∨ ¬ bcdOk 0 ∨ ¬ bcdOk 0x15 ∨ ¬ bcdOk 0x01 ∨
      ¬ bcdOk 1 ∨ ¬ bcdOk 0x24) ∧
    decode_regs [0x0a, 0, 0, 0x15, 0x01, 1, 0x24] = none ∧
    (12 : Nat) < fromBCD 0x13 ∧
    decode_regs [0, 0, 0, 0x15, 0x13, 1, 0x24] = none :=
  ⟨Or.inl (by decide),
   c6_decode_rejection 0x0a 0 0 0x15 0x01 1 0x24 (Or.inl (Or.inl (by decide))),
   by decide,
   c6_decode_rejection 0 0 0 0x15 0x13 1 0x24 (by decide)⟩

/-- C9: `read_datetime` resolves the chip's two-digit year with the
`strptime` pivot, not a fixed century: the decoded year is
`pivotYear (year mod 100)`, which is `1900 + y` for `y` in 69-99 and
`2000 + y` for `y` in 0-68; hence for every datetime whose year lies
outside 1969-2068, `write_datetime` followed by `read_datetime` does
not return the original year. -/
theorem c9_year_pivot (dt : DateTime) (_hdt : ValidDT dt)
    (hout : dt.year < 1969 ∨ 2068 < dt.year) (d : DateTime)
    (hdec : decode_regs (encodeRegs dt) = some d) :
    d.year = pivotYear (dt.year % 100) ∧
    (69 ≤ dt.year % 100 → d.year = 1900 + dt.year % 100) ∧
    (dt.year % 100 ≤ 68 → d.year = 2000 + dt.year % 100) ∧
    d.year ≠ dt.year := by
  simp only [encodeRegs, decode_regs, fromBCD_hexOfDec] at hdec
  split at hdec
  · have hd : d = ⟨pivotYear (dt.year % 100), dt.month, dt.day, dt.hour,
        dt.minute, dt.second⟩ := by
      exact (Option.some.injEq _ _).mp hdec.symm
    have hy99 : dt.year % 100 ≤ 99 := by omega
    have hb := pivotYear_bounds (dt.year % 100) hy99
    subst hd
    refine ⟨rfl, ?_, ?_, ?_⟩
    · intro hc
      simp only [pivotYear, if_pos hc]
    · intro hc
      have hn : ¬ 69 ≤ dt.year % 100 := by omega
      simp only [pivotYear, if_neg hn]
    · simp only []
      omega
  · exact absurd hdec (by simp)

/-- C9 witness: writing 1950-01-01 00:00:00 and decoding the frame back
yields year 2050, not 1950. -/
theorem c9_year_pivot_witness :
    ValidDT ⟨1950, 1, 1, 0, 0, 0⟩ ∧
    ((1950 : Nat) < 1969 ∨ 2068 < (1950 : Nat)) ∧
    decode_regs (encodeRegs ⟨1950, 1, 1, 0, 0, 0⟩) =
      some ⟨2050, 1, 1, 0, 0, 0⟩ ∧
    DateTime.year ⟨2050, 1, 1, 0, 0, 0⟩ ≠ 1950 :=
  ⟨by decide, Or.inl (by decide), by decide,
   (c9_year_pivot ⟨1950, 1, 1, 0, 0, 0⟩ (by decide) (Or.inl (by decide))
     ⟨2050, 1, 1, 0, 0, 0⟩ (by decide)).2.2.2⟩

set_option maxRecDepth 100000

/-- C2: for every byte value 0-0xFF, `_write_byte` drives the data pin
with the byte's bits least-significant first, and `_read_byte`'s
assembly of 8 sampled bits least-significant first recovers the byte:
under a loopback feeding each written bit back as the next read bit,
reading after writing `v` returns `v`. -/
theorem c2_bit_order :
    ∀ v : Nat, v < 256 →
      dat_levels (write_byte_trace v) =
        (List.range 8).map (fun i => v / 2 ^ i % 2) ∧
      read_byte_from_bits (dat_levels (write_byte_trace v)) = v := by
  decide

/-- C2 witness: writing 0xA5 on a looped pin reads back 0xA5. -/
theorem c2_bit_order_witness :
    (0xa5 : Nat) < 256 ∧
    dat_levels (write_byte_trace 0xa5) =
      (List.range 8).map (fun i => 0xa5 / 2 ^ i % 2) ∧
    read_byte_from_bits (dat_levels (write_byte_trace 0xa5)) = 0xa5 :=
  ⟨by decide, c2_bit_order 0xa5 (by decide)⟩

/-! ## Event predicates and the transaction framing property (C3) -/

/-- The event is a rising clock edge: `gpio.output(clk, HIGH)`. -/
def is_clk_high : Ev → Bool
| Ev.output PinId.clk 1 => true
| _ => false

/-- The event drives the clock pin (either level). -/
def is_clk_out : Ev → Bool
| Ev.output PinId.clk _ => true
| _ => false

/-- The event drives reset/chip-select HIGH. -/
def is_rst_high : Ev → Bool
| Ev.output PinId.rst 1 => true
| _ => false

/-- The event drives reset/chip-select LOW. -/
def is_rst_low : Ev → Bool
| Ev.output PinId.rst 0 => true
| _ => false

/-- The event drives the reset pin (either level). -/
def is_rst_ev : Ev → Bool
| Ev.output PinId.rst _ => true
| _ => false

/-- The event switches the data pin to input mode. -/
def is_dat_in_setup : Ev → Bool
| Ev.setup PinId.dat PinDir.dirIn => true
| _ => false

/-- The event switches the data pin to output mode. -/
def is_dat_out_setup : Ev → Bool
| Ev.setup PinId.dat PinDir.dirOut => true
| _ => false

/-- The framing property of the spec for one operation's pin-call
trace: the trace contains a clock edge; reset is driven high before
the first rising clock edge; no reset-low lies between any two clock
drives (so reset stays high from the first to the last clock edge);
and every reset-low is preceded by a switch of the data pin to input
with no switch back to output in between. -/
def Framed (tr : List Ev) : Prop :=
  (∃ i, ∃ hi : i < tr.length, is_clk_high (tr.get ⟨i, hi⟩) = true) ∧
  (∀ i (hi : i < tr.length), is_clk_high (tr.get ⟨i, hi⟩) = true →
    ∃ j, ∃ hj : j < tr.length, j < i ∧ is_rst_high (tr.get ⟨j, hj⟩) = true) ∧
  (∀ i j k (hi : i < tr.length) (hj : j < tr.length) (hk : k < tr.length),
    i ≤ j → j ≤ k → is_clk_out (tr.get ⟨i, hi⟩) = true →
    is_clk_out (tr.get ⟨k, hk⟩) = true → is_rst_low (tr.get ⟨j, hj⟩) = false) ∧
  (∀ k (hk : k < tr.length), is_rst_low (tr.get ⟨k, hk⟩) = true →
    ∃ j, ∃ hj : j < tr.length, j < k ∧ is_dat_in_setup (tr.get ⟨j, hj⟩) = true ∧
      ∀ l (hl : l < tr.length), j < l → l < k →
        is_dat_out_setup (tr.get ⟨l, hl⟩) = false)

/-- An event on the reset pin is never a clock drive, a data-pin
switch, or a clock edge; and the two reset levels are the only events
satisfying the reset predicates. -/
theorem is_rst_low_imp_ev (e : Ev) (h : is_rst_low e = true) :
    is_rst_ev e = true := by
  cases e with
  | output p l =>
    cases p
    · simp [is_rst_low] at h
    · simp [is_rst_low] at h
    · simp [is_rst_ev]
  | setup p d => simp [is_rst_low] at h
  | input p => simp [is_rst_low] at h
  | cleanup => simp [is_rst_low] at h

/-- Position lemma: the element at index `i` of a transaction-shaped
trace `start_tx_trace ++ mid ++ end_tx_trace`. -/
theorem tx_get (mid : List Ev) (i : Nat)
    (hi : i < (start_tx_trace ++ mid ++ end_tx_trace).length) :
    (start_tx_trace ++ mid ++ end_tx_trace).get ⟨i, hi⟩ =
      if i = 0 then Ev.output PinId.clk 0
      else if i = 1 then Ev.output PinId.rst 1
      else if h : i - 2 < mid.length then mid.get ⟨i - 2, h⟩
      else if i = mid.length + 2 then Ev.setup PinId.dat PinDir.dirIn
      else if i = mid.length + 3 then Ev.output PinId.clk 0
      else Ev.output PinId.rst 0 := by
  have hlen : (start_tx_trace ++ mid ++ end_tx_trace).length = mid.length + 5 := by
    simp [start_tx_trace, end_tx_trace]
  match i with
  | 0 => rfl
  | 1 => rfl
  | (m + 2) =>
    have hi2 : m + 2 < mid.length + 5 := hlen ▸ hi
    rw [if_neg (by omega), if_neg (by omega)]
    have hb : m < (mid ++ end_tx_trace).length := by
      simp [end_tx_trace]
      omega
    have hstep : (start_tx_trace ++ mid ++ end_tx_trace).get ⟨m + 2, hi⟩ =
        (mid ++ end_tx_trace).get ⟨m, hb⟩ := rfl
    rw [hstep]
    by_cases hm : m < mid.length
    · rw [dif_pos (by omega)]
      simp only [List.get_eq_getElem]
      rw [List.getElem_append_left hm]
      have hmm : m + 2 - 2 = m := by omega
      simp [hmm]
    · rw [dif_neg (by omega)]
      simp only [List.get_eq_getElem]
      rw [List.getElem_append_right (by omega)]
      have hm3 : m - mid.length = 0 ∨ m - mid.length = 1 ∨ m - mid.length = 2 := by
        simp [end_tx_trace] at hb
        omega
      rcases hm3 with hv | hv | hv
      · rw [if_pos (by omega)]
        simp only [hv]
        rfl
      · rw [if_neg (by omega), if_pos (by omega)]
        simp only [hv]
        rfl
      · rw [if_neg (by omega), if_neg (by omega)]
        simp only [hv]
        rfl


/-- Any transaction-shaped trace whose middle section never touches the
reset pin and contains a rising clock edge satisfies the framing
property. -/
theorem framed_of_tx_shape (mid : List Ev)
    (hrst : ∀ e ∈ mid, is_rst_ev e = false)
    (hclk : ∃ e ∈ mid, is_clk_high e = true) :
    Framed (start_tx_trace ++ mid ++ end_tx_trace) := by
  have hlen : (start_tx_trace ++ mid ++ end_tx_trace).length = mid.length + 5 := by
    simp [start_tx_trace, end_tx_trace]
  have hrstlow : ∀ j (hj : j < (start_tx_trace ++ mid ++ end_tx_trace).length),
      is_rst_low ((start_tx_trace ++ mid ++ end_tx_trace).get ⟨j, hj⟩) = true →
      j = mid.length + 4 := by
    intro j hj hlow
    have hj5 : j < mid.length + 5 := hlen ▸ hj
    rw [tx_get] at hlow
    split_ifs at hlow with e1 e2 e3 e4 e5
    · simp [is_rst_low] at hlow
    · simp [is_rst_low] at hlow
    · have hmem := List.get_mem mid (j - 2) e3
      have hev := is_rst_low_imp_ev _ hlow
      rw [hrst _ hmem] at hev
      cases hev
    · simp [is_rst_low] at hlow
    · simp [is_rst_low] at hlow
    · omega
  refine ⟨?_, ?_, ?_, ?_⟩
  · obtain ⟨e, hem, he⟩ := hclk
    obtain ⟨jm, hjm, hje⟩ := List.getElem_of_mem hem
    refine ⟨jm + 2, by omega, ?_⟩
    rw [tx_get]
    rw [if_neg (by omega), if_neg (by omega), dif_pos (by omega : jm + 2 - 2 < mid.length)]
    simp only [List.get_eq_getElem]
    have hmm : jm + 2 - 2 = jm := by omega
    simp only [hmm]
    rw [hje]
    exact he
  · intro i hi hch
    have hi5 : i < mid.length + 5 := hlen ▸ hi
    have hne0 : i ≠ 0 := by
      intro h0
      subst h0
      rw [tx_get, if_pos rfl] at hch
      simp [is_clk_high] at hch
    have hne1 : i ≠ 1 := by
      intro h1
      subst h1
      rw [tx_get, if_neg (by omega), if_pos rfl] at hch
      simp [is_clk_high] at hch
    refine ⟨1, by omega, by omega, ?_⟩
    rw [tx_get, if_neg (by omega), if_pos rfl]
    rfl
  · intro i j k hi hj hk hij hjk hci hck
    by_contra hc
    have hlow : is_rst_low ((start_tx_trace ++ mid ++ end_tx_trace).get ⟨j, hj⟩) = true := by
      cases hb : is_rst_low ((start_tx_trace ++ mid ++ end_tx_trace).get ⟨j, hj⟩)
      · exact absurd hb hc
      · rfl
    have hj4 := hrstlow j hj hlow
    have hk5 : k < mid.length + 5 := hlen ▸ hk
    have hk4 : k = mid.length + 4 := by omega
    subst hk4
    rw [tx_get, if_neg (by omega), if_neg (by omega), dif_neg (by omega),
      if_neg (by omega), if_neg (by omega)] at hck
    simp [is_clk_out] at hck
  · intro k hk hlow
    have hk4 := hrstlow k hk hlow
    have hj2 : mid.length + 2 < (start_tx_trace ++ mid ++ end_tx_trace).length := by
      omega
    refine ⟨mid.length + 2, hj2, by omega, ?_, ?_⟩
    · rw [tx_get, if_neg (by omega), if_neg (by omega), dif_neg (by omega),
        if_pos rfl]
      rfl
    · intro l hl hl2 hl4
      have hl3 : l = mid.length + 3 := by omega
      subst hl3
      rw [tx_get, if_neg (by omega), if_neg (by omega), dif_neg (by omega),
        if_neg (by omega), if_pos rfl]
      rfl

theorem rst_free_write_bits (n b : Nat) :
    ∀ e ∈ write_bits_trace n b, is_rst_ev e = false := by
  induction n generalizing b with
  | zero =>
    intro e he
    simp [write_bits_trace] at he
  | succ n ih =>
    intro e he
    simp only [write_bits_trace, List.mem_cons] at he
    rcases he with h | h | h | h
    · subst h; rfl
    · subst h; rfl
    · subst h; rfl
    · exact ih (b / 2) e h

theorem rst_free_write_byte (b : Nat) :
    ∀ e ∈ write_byte_trace b, is_rst_ev e = false := by
  intro e he
  simp only [write_byte_trace, List.mem_cons] at he
  rcases he with h | h
  · subst h; rfl
  · exact rst_free_write_bits 8 b e h

theorem rst_free_read_byte : ∀ e ∈ read_byte_trace, is_rst_ev e = false := by
  decide

theorem clk_high_mem_write_byte (b : Nat) :
    ∃ e ∈ write_byte_trace b, is_clk_high e = true := by
  refine ⟨Ev.output PinId.clk 1, ?_, rfl⟩
  simp [write_byte_trace, write_bits_trace]

theorem rst_free_append {l1 l2 : List Ev}
    (h1 : ∀ e ∈ l1, is_rst_ev e = false)
    (h2 : ∀ e ∈ l2, is_rst_ev e = false) :
    ∀ e ∈ l1 ++ l2, is_rst_ev e = false := by
  intro e he
  rcases List.mem_append.mp he with h | h
  · exact h1 e h
  · exact h2 e h

theorem rst_free_replicate_reads (n : Nat) :
    ∀ e ∈ (List.replicate n read_byte_trace).flatten, is_rst_ev e = false := by
  intro e he
  rw [List.mem_flatten] at he
  obtain ⟨l, hl, hel⟩ := he
  rw [List.mem_replicate] at hl
  obtain ⟨-, rfl⟩ := hl
  exact rst_free_read_byte e hel

theorem rst_free_map_writes (bs : List Nat) :
    ∀ e ∈ (bs.map write_byte_trace).flatten, is_rst_ev e = false := by
  intro e he
  rw [List.mem_flatten] at he
  obtain ⟨l, hl, hel⟩ := he
  rw [List.mem_map] at hl
  obtain ⟨b, -, rfl⟩ := hl
  exact rst_free_write_byte b e hel

/-- C3: for every data operation (`read_datetime`, `write_datetime`,
`read_ram`, `write_ram`), the emitted pin-call sequence satisfies the
framing property: reset is driven high before the first clock edge,
stays high between the first and last clock edge, and is driven low
only after the data pin has been switched to input mode. -/
theorem c3_transaction_framing (dt : DateTime) (ram : List Nat) :
    Framed read_datetime_trace ∧ Framed (write_datetime_trace dt) ∧
    Framed read_ram_trace ∧ Framed (write_ram_trace ram) := by
  refine ⟨?_, ?_, ?_, ?_⟩
  · unfold read_datetime_trace
    rw [List.append_assoc start_tx_trace]
    exact framed_of_tx_shape _
      (rst_free_append (rst_free_write_byte _) (rst_free_replicate_reads _))
      (let ⟨e, he, hc⟩ := clk_high_mem_write_byte REG_BURST_READ
       ⟨e, List.mem_append.mpr (Or.inl he), hc⟩)
  · unfold write_datetime_trace
    rw [List.append_assoc start_tx_trace]
    exact framed_of_tx_shape _
      (rst_free_append (rst_free_write_byte _) (rst_free_map_writes _))
      (let ⟨e, he, hc⟩ := clk_high_mem_write_byte REG_BURST_WRITE
       ⟨e, List.mem_append.mpr (Or.inl he), hc⟩)
  · unfold read_ram_trace
    rw [List.append_assoc start_tx_trace]
    exact framed_of_tx_shape _
      (rst_free_append (rst_free_write_byte _) (rst_free_replicate_reads _))
      (let ⟨e, he, hc⟩ := clk_high_mem_write_byte RAM_BURST_READ
       ⟨e, List.mem_append.mpr (Or.inl he), hc⟩)
  · unfold write_ram_trace
    rw [List.append_assoc start_tx_trace]
    exact framed_of_tx_shape _
      (rst_free_append (rst_free_write_byte _) (rst_free_map_writes _))
      (let ⟨e, he, hc⟩ := clk_high_mem_write_byte RAW_BURST_WRITE
       ⟨e, List.mem_append.mpr (Or.inl he), hc⟩)

/-- C3 witness: the framing property at the concrete operation
`write_ram` on the block `[1, 2, 3]`. -/
theorem c3_transaction_framing_witness :
    Framed (write_ram_trace [1, 2, 3]) :=
  (c3_transaction_framing ⟨2024, 1, 15, 10, 30, 45⟩ [1, 2, 3]).2.2.2

/-! ## Helper lemmas for counting reset events and RAM truncation -/

/-- A reset-high event is an event on the reset pin. -/
theorem is_rst_high_imp_ev (e : Ev) (h : is_rst_high e = true) :
    is_rst_ev e = true := by
  cases e with
  | output p l =>
    cases p
    · simp [is_rst_high] at h
    · simp [is_rst_high] at h
    · simp [is_rst_ev]
  | setup p d => simp [is_rst_high] at h
  | input p => simp [is_rst_high] at h
  | cleanup => simp [is_rst_high] at h

/-- A trace that never touches the reset pin contains no reset-high
event. -/
theorem countP_rst_high_zero {l : List Ev}
    (h : ∀ e ∈ l, is_rst_ev e = false) : l.countP is_rst_high = 0 := by
  rw [List.countP_eq_zero]
  intro a ha hc
  have hev := is_rst_high_imp_ev a hc
  rw [h a ha] at hev
  cases hev

/-- A trace that never touches the reset pin contains no reset-low
event. -/
theorem countP_rst_low_zero {l : List Ev}
    (h : ∀ e ∈ l, is_rst_ev e = false) : l.countP is_rst_low = 0 := by
  rw [List.countP_eq_zero]
  intro a ha hc
  have hev := is_rst_low_imp_ev a hc
  rw [h a ha] at hev
  cases hev

/-- The loop of `write_ram` sends exactly the first
`min (len ram) RAM_SIZE` bytes of the block, in order. -/
theorem write_ram_data_eq_take (ram : List Nat) :
    write_ram_data ram = ram.take RAM_SIZE := by
  apply List.ext_getElem
  · simp [write_ram_data, RAM_SIZE, Nat.min_comm]
  · intro i h1 h2
    simp only [write_ram_data, List.getElem_map, List.getElem_range,
      List.getElem_take]
    have hib : i < ram.length := by
      simp [write_ram_data] at h1
      omega
    rw [List.getD_eq_getElem?_getD, List.getElem?_eq_getElem hib]
    rfl

/-- C4: for every datetime input, `write_datetime` emits exactly one
transaction (exactly one reset-high and one reset-low drive)
consisting of the register-burst-write command byte 0xBE, followed by
the 7 BCD-encoded bytes in the fixed wire order second, minute, hour,
day-of-month, month, weekday, year, followed by exactly two trailing
zero padding bytes. -/
theorem c4_write_datetime_bytes (dt : DateTime) (_hdt : ValidDT dt) :
    write_datetime_trace dt =
      start_tx_trace ++ write_byte_trace REG_BURST_WRITE ++
      (List.map write_byte_trace
        [hexOfDec dt.second, hexOfDec dt.minute, hexOfDec dt.hour,
         hexOfDec dt.day, hexOfDec dt.month,
         hexOfDec (isoWeekday dt.year dt.month dt.day),
         hexOfDec (dt.year % 100), 0, 0]).flatten ++
      end_tx_trace ∧
    REG_BURST_WRITE = 0xbe ∧
    (write_datetime_trace dt).countP is_rst_high = 1 ∧
    (write_datetime_trace dt).countP is_rst_low = 1 := by
  refine ⟨rfl, rfl, ?_, ?_⟩
  · unfold write_datetime_trace
    simp only [List.countP_append]
    rw [countP_rst_high_zero (rst_free_write_byte _),
      countP_rst_high_zero (rst_free_map_writes _)]
    decide
  · unfold write_datetime_trace
    simp only [List.countP_append]
    rw [countP_rst_low_zero (rst_free_write_byte _),
      countP_rst_low_zero (rst_free_map_writes _)]
    decide

/-- C4 witness: the frame written for 2024-01-15 10:30:45 (a Monday). -/
theorem c4_write_datetime_bytes_witness :
    ValidDT ⟨2024, 1, 15, 10, 30, 45⟩ ∧
    write_datetime_trace ⟨2024, 1, 15, 10, 30, 45⟩ =
      start_tx_trace ++ write_byte_trace REG_BURST_WRITE ++
      (List.map write_byte_trace
        [0x45, 0x30, 0x10, 0x15, 0x01, 0x01, 0x24, 0, 0]).flatten ++
      end_tx_trace := by
  refine ⟨by decide, ?_⟩
  have h := (c4_write_datetime_bytes ⟨2024, 1, 15, 10, 30, 45⟩ (by decide)).1
  rw [h]
  rfl

/-- C5: the command byte constants match the spec table bit-exactly,
and every operation sends the table byte for its target and direction
as the first byte of its transaction (`read_ram`/`write_ram` the RAM
burst bytes, `read_datetime`/`write_datetime` the register burst
bytes, and the two constructor transactions the write-protect-write
and charge-control-write bytes followed by 0x00). -/
theorem c5_command_bytes (dt : DateTime) (ram : List Nat) :
    WP_REG_READ = 0x8f ∧ WP_REG_WRITE = 0x8e ∧
    CHR_REG_READ = 0x91 ∧ CHR_REG_WRITE = 0x90 ∧
    REG_BURST_READ = 0xbf ∧ REG_BURST_WRITE = 0xbe ∧
    RAM_BURST_READ = 0xff ∧ RAW_BURST_WRITE = 0xfe ∧
    (∃ r, read_datetime_trace =
      start_tx_trace ++ write_byte_trace REG_BURST_READ ++ r) ∧
    (∃ r, write_datetime_trace dt =
      start_tx_trace ++ write_byte_trace REG_BURST_WRITE ++ r) ∧
    (∃ r, read_ram_trace =
      start_tx_trace ++ write_byte_trace RAM_BURST_READ ++ r) ∧
    (∃ r, write_ram_trace ram =
      start_tx_trace ++ write_byte_trace RAW_BURST_WRITE ++ r) ∧
    init_trace =
      [Ev.setup PinId.clk PinDir.dirOut, Ev.output PinId.clk 0,
       Ev.setup PinId.rst PinDir.dirOut, Ev.output PinId.rst 0] ++
      start_tx_trace ++ write_byte_trace WP_REG_WRITE ++
      write_byte_trace 0x00 ++ end_tx_trace ++
      start_tx_trace ++ write_byte_trace CHR_REG_WRITE ++
      write_byte_trace 0x00 ++ end_tx_trace := by
  refine ⟨rfl, rfl, rfl, rfl, rfl, rfl, rfl, rfl, ?_, ?_, ?_, ?_, ?_⟩
  · exact ⟨(List.replicate REG_SIZE read_byte_trace).flatten ++ end_tx_trace,
      by simp [read_datetime_trace, List.append_assoc]⟩
  · exact ⟨(List.map write_byte_trace (write_datetime_regs dt)).flatten ++
      end_tx_trace, by simp [write_datetime_trace, List.append_assoc]⟩
  · exact ⟨(List.replicate RAM_SIZE read_byte_trace).flatten ++ end_tx_trace,
      by simp [read_ram_trace, List.append_assoc]⟩
  · exact ⟨(List.map write_byte_trace (write_ram_data ram)).flatten ++
      end_tx_trace, by simp [write_ram_trace, List.append_assoc]⟩
  · simp [init_trace, List.append_assoc]

/-- C7: for every input block, `write_ram` writes the RAM-burst-write
command byte 0xFE followed by exactly `min (len block) 31` data bytes
taken in order from the start of the block — longer blocks are
truncated silently (the function is total, no error path) and shorter
blocks are not padded. -/
theorem c7_write_ram_truncation (ram : List Nat) :
    write_ram_data ram = ram.take 31 ∧
    (write_ram_data ram).length = min ram.length 31 ∧
    write_ram_trace ram =
      start_tx_trace ++ write_byte_trace RAW_BURST_WRITE ++
      ((ram.take 31).map write_byte_trace).flatten ++ end_tx_trace ∧
    RAW_BURST_WRITE = 0xfe := by
  have ht := write_ram_data_eq_take ram
  refine ⟨ht, ?_, ?_, rfl⟩
  · rw [ht]
    simp [RAM_SIZE, Nat.min_comm]
  · unfold write_ram_trace
    rw [ht]
    rfl

/-- C10: calling `write_ram` with an empty block still performs a
complete framed transaction: reset is asserted, the RAM-burst-write
command byte 0xFE is clocked out with the data pin configured as
output, zero data bytes follow, and the transaction is closed
normally. -/
theorem c10_write_ram_empty :
    write_ram_data [] = [] ∧
    write_ram_trace [] =
      start_tx_trace ++ write_byte_trace RAW_BURST_WRITE ++ end_tx_trace ∧
    write_ram_trace [] =
      [Ev.output PinId.clk 0, Ev.output PinId.rst 1] ++
      (Ev.setup PinId.dat PinDir.dirOut :: write_bits_trace 8 0xfe) ++
      [Ev.setup PinId.dat PinDir.dirIn, Ev.output PinId.clk 0,
       Ev.output PinId.rst 0] ∧
    (write_ram_trace []).countP is_rst_high = 1 ∧
    (write_ram_trace []).countP is_rst_low = 1 := by
  refine ⟨rfl, by decide, by decide, by decide, by decide⟩

/-! ## Driver object lifecycle (C8) -/

/-- The observable state of a driver object.  The source's only
teardown effect is the `gpio.cleanup` call in `__del__`; the flag
records whether it has run.  The source keeps no other lifecycle
state. -/
structure DriverState where
  cleaned_up : Bool
deriving DecidableEq, Repr

/-- A method call on a constructed driver object. -/
inductive Op
| read_datetime_op
| write_datetime_op (dt : DateTime)
| read_ram_op
| write_ram_op (ram : List Nat)
| del_op
deriving Repr

/-- One method call of the driver: `__del__` marks the object cleaned
up and emits the `gpio.cleanup` pin call; each data method emits its
full pin-call trace unconditionally and leaves the state unchanged,
because the source methods perform no lifecycle check of any kind
before driving the pins. -/
def runOp : Op → DriverState → DriverState × List Ev
| Op.del_op, _ => (⟨true⟩, [Ev.cleanup])
| Op.read_datetime_op, s => (s, read_datetime_trace)
| Op.write_datetime_op dt, s => (s, write_datetime_trace dt)
| Op.read_ram_op, s => (s, read_ram_trace)
| Op.write_ram_op ram, s => (s, write_ram_trace ram)

/-- C8 counterexample: after teardown (`__del__`, which sets the
cleaned-up state), calling `read_datetime` does not fail with a
lifecycle error and does emit pin-level calls — its full transaction
trace, identical to the one before teardown. -/
theorem c8_lifecycle_counterexample :
    (runOp Op.del_op ⟨false⟩).1.cleaned_up = true ∧
    (runOp Op.read_datetime_op (runOp Op.del_op ⟨false⟩).1).2 =
      read_datetime_trace ∧
    read_datetime_trace ≠ [] := by
  refine ⟨rfl, rfl, by decide⟩

/-- C8 (amended): the driver has no lifecycle gating at all: in every
driver state — cleaned up or not — `read_datetime` leaves the state
unchanged and emits its full, nonempty pin-call sequence; the only
teardown effect is the single `gpio.cleanup` call releasing the pins. -/
theorem c8_no_lifecycle_gating (s : DriverState) :
    (runOp Op.read_datetime_op s).1 = s ∧
    (runOp Op.read_datetime_op s).2 = read_datetime_trace ∧
    read_datetime_trace ≠ [] ∧
    runOp Op.del_op s = (⟨true⟩, [Ev.cleanup]) := by
  refine ⟨rfl, rfl, by decide, rfl⟩
